import Mathlib

/-!
Shallow embedding of the token lifecycle, authorized-request pipeline,
paginated track fetch, multi-criterion sort and playlist-write batching of
the sort-spotify-playlist web client (src/src/lib/spotifyAuth.ts,
src/src/lib/spotifyClient.ts, src/src/App.tsx).

Conventions of the embedding:
* JavaScript `string | undefined` / nullable values become `Option`.
* Timestamps (`Date.now()`, parsed `added_at` instants) are `Int`
  milliseconds; `Date.now()` is passed in explicitly as `now`.
* Functions that `throw` return `Except String _`.
* Browser storage (`localStorage` / `sessionStorage`) is an explicit
  `Storage` record threaded through the storage-touching functions.
* HTTP calls are parameters: a token-endpoint response
  (`Except Unit TokenEndpointResponse`), or a resource server modelled as a
  function from the send counter to an HTTP status.
-/

namespace Sortify

/-- `TokenSet` from spotifyAuth.ts: the persisted token record. -/
structure TokenSet where
  accessToken : String
  refreshToken : String
  expiresAt : Int
  scope : String
  deriving Repr, DecidableEq

/-- Shape of a token-endpoint success body (`TokenEndpointResponse` in
spotifyAuth.ts); `refresh_token` is optional there. -/
structure TokenEndpointResponse where
  access_token : String
  refresh_token : Option String
  expires_in : Int
  scope : String
  deriving Repr, DecidableEq

/-- JavaScript string falsiness for a `string | undefined` value:
`undefined` and the empty string are falsy. -/
def jsFalsyStr : Option String → Bool
  | none => true
  | some s => s = ""

/-- `buildTokenSet` from spotifyAuth.ts: pick `data.refresh_token ?? previousRefreshToken`,
throw when that is falsy (absent or empty), otherwise assemble the record with
`expiresAt = Date.now() + expires_in * 1000`. -/
def buildTokenSet (now : Int) (data : TokenEndpointResponse)
    (previousRefreshToken : Option String := none) : Except String TokenSet :=
  match data.refresh_token.orElse (fun _ => previousRefreshToken) with
  | none => .error "Missing refresh token from Spotify response"
  | some rt =>
      if rt = "" then .error "Missing refresh token from Spotify response"
      else .ok {
        accessToken := data.access_token
        refreshToken := rt
        expiresAt := now + data.expires_in * 1000
        scope := data.scope }

/-- A JSON value, as produced by a successful `JSON.parse`. -/
inductive JsonValue where
  | null : JsonValue
  | bool : Bool → JsonValue
  | num : Int → JsonValue
  | str : String → JsonValue
  | arr : List JsonValue → JsonValue
  | obj : List (String × JsonValue) → JsonValue
  deriving Repr

/-- Property access `v.key` on a parsed JSON value. On an object it reads the
field; on `null` the access throws a TypeError, which the `try` block of
`loadStoredTokens` turns into the absent result, so it is modelled like the
`undefined` every other non-object access yields. -/
def JsonValue.getField : JsonValue → String → Option JsonValue
  | .obj fields, key => fields.lookup key
  | _, _ => none

/-- `typeof x === 'string'` on an optional JSON value (`undefined` is not a
string). -/
def jsTypeofString : Option JsonValue → Bool
  | some (.str _) => true
  | _ => false

/-- `loadStoredTokens` from spotifyAuth.ts: read the raw stored string, return
absent when it is missing; parse it (`parse r = none` models a `JSON.parse`
throw, caught by the surrounding `try`); return the parsed value only when both
`accessToken` and `refreshToken` are strings, absent otherwise. The `parse`
function abstracts the platform `JSON.parse`. -/
def loadStoredTokens (parse : String → Option JsonValue)
    (raw : Option String) : Option JsonValue :=
  match raw with
  | none => none
  | some r =>
      match parse r with
      | none => none
      | some v =>
          if jsTypeofString (v.getField "accessToken")
              && jsTypeofString (v.getField "refreshToken") then some v
          else none

/-- The browser storage touched by spotifyAuth.ts: the durable token record
(`TOKEN_STORAGE_KEY` in localStorage) and the two session-scoped transient
values (`STATE_KEY`, `CODE_VERIFIER_KEY` in sessionStorage). -/
structure Storage where
  token : Option TokenSet
  stateKey : Option String
  verifierKey : Option String
  deriving Repr, DecidableEq

/-- `storeTokens` from spotifyAuth.ts. -/
def storeTokens (ts : TokenSet) (st : Storage) : Storage :=
  { st with token := some ts }

/-- `clearStoredAuth` from spotifyAuth.ts: removes the token record and both
session-scoped transient values. -/
def clearStoredAuth (st : Storage) : Storage :=
  { st with token := none, stateKey := none, verifierKey := none }

/-- `completeAuthorization` from spotifyAuth.ts. Inputs: the state returned on
the redirect, the outcome of the token-endpoint POST (`.error` models a
non-success HTTP response), and the storage. Reproduces the source order:
state check (`!expectedState || returnedState !== expectedState`), verifier
check, exchange, `buildTokenSet`, `storeTokens`, then removal of the two
session keys. Returns the thrown-or-returned value with the updated storage. -/
def completeAuthorization (now : Int) (returnedState : String)
    (exchange : Except Unit TokenEndpointResponse) (st : Storage) :
    Except String TokenSet × Storage :=
  if jsFalsyStr st.stateKey || decide (some returnedState ≠ st.stateKey) then
    (.error "Trạng thái xác thực không hợp lệ, vui lòng thử lại.", st)
  else if jsFalsyStr st.verifierKey then
    (.error "Thiếu mã xác minh PKCE, hãy khởi động lại bước đăng nhập.", st)
  else
    match exchange with
    | .error _ => (.error "Không thể hoàn tất đăng nhập Spotify.", st)
    | .ok data =>
        match buildTokenSet now data with
        | .error e => (.error e, st)
        | .ok tokenSet =>
            (.ok tokenSet,
              { storeTokens tokenSet st with stateKey := none, verifierKey := none })

/-- `refreshAccessToken` from spotifyAuth.ts. On a non-success token-endpoint
response it clears all stored credentials and throws; on success it builds the
new record carrying `previous.refreshToken` as the fallback, stores it and
returns it (a `buildTokenSet` throw happens before `storeTokens`, leaving the
storage unchanged). -/
def refreshAccessToken (now : Int) (previous : TokenSet)
    (response : Except Unit TokenEndpointResponse) (st : Storage) :
    Except String TokenSet × Storage :=
  match response with
  | .error _ =>
      (.error "Phiên Spotify đã hết hạn. Vui lòng đăng nhập lại.", clearStoredAuth st)
  | .ok data =>
      match buildTokenSet now data (some previous.refreshToken) with
      | .error e => (.error e, st)
      | .ok tokenSet => (.ok tokenSet, storeTokens tokenSet st)

/-! ## The authorized request pipeline (spotifyClient.ts)

`SpotifyClient.authorizedFetch` is modelled with: `now` for `Date.now()`, a
total `refreshFn` for a succeeding `refreshAccessToken`, a `server` mapping
the send counter to the HTTP status of that send, and a fuel argument making
the self-recursion well-founded in Lean (the source recursion has no bound;
`none` means the fuel ran out before the code returned). -/

/-- Decimal value of a digit string, most significant first. -/
def digitsToNat : List Char → Nat → Nat
  | [], acc => acc
  | c :: rest, acc => digitsToNat rest (acc * 10 + (c.toNat - 48))

/-- JavaScript `Number(s)` restricted to the shapes a retry-after header
takes: the empty string converts to `0`, a plain digit string to its value,
and anything else to `NaN`, modelled as `none`. -/
def jsNumber (s : String) : Option Int :=
  if s = "" then some 0
  else if s.data.all Char.isDigit then some (Int.ofNat (digitsToNat s.data 0))
  else none

/-- The delay computed on a 429 response:
`Number(response.headers.get("retry-after") ?? "2") * 1000`, where a missing
header yields `"2"`. `none` is `NaN`. -/
def retryAfterDelayMs (header : Option String) : Option Int :=
  (jsNumber (header.getD "2")).map (· * 1000)

/-- The wait `setTimeout` actually performs for a requested delay: `NaN`
(and any negative value) is coerced to `0`, i.e. the timer fires
immediately. -/
def setTimeoutDelay : Option Int → Int
  | none => 0
  | some v => max v 0

/-- `SpotifyClient.ensureFreshAccessToken`: when
`Date.now() + 60000 < expiresAt` the current access token is returned with no
refresh; otherwise the token set is refreshed once and the refreshed access
token returned. Result: (access token used, token state afterwards, number of
refreshes performed). -/
def ensureFreshAccessToken (now : Int) (refreshFn : TokenSet → TokenSet)
    (tokens : TokenSet) : String × TokenSet × Nat :=
  if now + 60000 < tokens.expiresAt then
    (tokens.accessToken, tokens, 0)
  else
    let refreshed := refreshFn tokens
    (refreshed.accessToken, refreshed, 1)

/-- One send of `authorizedFetch` as recorded in the trace: the
`Authorization` header put on the wire and the status the server answered. -/
structure Send where
  authHeader : String
  status : Int
  deriving Repr, DecidableEq

/-- The outcome of a terminating `authorizedFetch` run: every send in order,
the status of the returned response, the token state left in the client, and
how many token refreshes happened. -/
structure FetchResult where
  trace : List Send
  status : Int
  tokens : TokenSet
  refreshes : Nat
  deriving Repr, DecidableEq

/-- Bookkeeping for a re-invocation of `authorizedFetch`: record the send
that triggered the retry in front of the recursive outcome's trace and add
the refreshes done before the recursion; a recursion that never returned
(`none`) stays `none`. -/
def prependSend (send : Send) (extraRefreshes : Nat) :
    Option FetchResult → Option FetchResult
  | none => none
  | some r => some { r with trace := send :: r.trace, refreshes := extraRefreshes + r.refreshes }

/-- `SpotifyClient.authorizedFetch`: ensure a fresh access token, send with
`Authorization: Bearer <token>`; on a 401 with `attempt === 0` refresh
unconditionally and re-invoke with `attempt + 1`; on a 429 wait and re-invoke
with `attempt + 1`; otherwise return the response. `sendIdx` counts sends so
`server` can script a status per send; `fuel` only bounds the recursion for
Lean, `none` meaning the source would still be recursing. -/
def authorizedFetch (now : Int) (refreshFn : TokenSet → TokenSet)
    (server : Nat → Int) :
    Nat → TokenSet → Nat → Nat → Option FetchResult
  | 0, _, _, _ => none
  | fuel + 1, tokens, attempt, sendIdx =>
    let e := ensureFreshAccessToken now refreshFn tokens
    let send : Send := { authHeader := "Bearer " ++ e.1, status := server sendIdx }
    if send.status = 401 ∧ attempt = 0 then
      prependSend send (e.2.2 + 1)
        (authorizedFetch now refreshFn server fuel (refreshFn e.2.1) (attempt + 1) (sendIdx + 1))
    else if send.status = 429 then
      prependSend send e.2.2
        (authorizedFetch now refreshFn server fuel e.2.1 (attempt + 1) (sendIdx + 1))
    else
      some { trace := [send], status := send.status, tokens := e.2.1, refreshes := e.2.2 }

/-! ## The multi-criterion sort engine (src/src/App.tsx, `sortedTracks`) -/

/-- The sortable fields (`SortField` in App.tsx). -/
inductive SortField where
  | name | mainArtist | album | addedAt | popularity | durationMs
  deriving Repr, DecidableEq

/-- Sort direction (`'asc' | 'desc'` in App.tsx). -/
inductive SortDirection where
  | asc | desc
  deriving Repr, DecidableEq

/-- `SortRule` from App.tsx. -/
structure SortRule where
  id : String
  field : SortField
  direction : SortDirection
  deriving Repr, DecidableEq

/-- `TrackRow` from App.tsx. `addedAt` is the parsed instant of the
timestamp string (`new Date(s).getTime()` is applied once in the embedding
instead of inside the date comparator). -/
structure TrackRow where
  id : String
  uri : String
  name : String
  artists : String
  mainArtist : String
  album : String
  popularity : Option Int
  durationMs : Int
  addedAt : Int
  originalIndex : Int
  deriving Repr, DecidableEq

/-- The collation key of one character under
`localeCompare("vi", { sensitivity: "base" })`, modelled for ASCII input as
the case-folded code point. -/
def localeCharKey (c : Char) : Nat :=
  let n := c.toNat
  if 65 ≤ n ∧ n ≤ 90 then n + 32 else n

/-- The collation key of a string: the case-folded code points in order. -/
def localeKey (s : String) : List Nat :=
  s.data.map localeCharKey

/-- Sign-valued lexicographic comparison of two key sequences. -/
def lexCmp : List Nat → List Nat → Int
  | [], [] => 0
  | [], _ :: _ => -1
  | _ :: _, [] => 1
  | a :: as, b :: bs =>
      if a < b then -1 else if b < a then 1 else lexCmp as bs

/-- `compareStrings` from App.tsx:
`a.localeCompare(b, "vi", { sensitivity: "base" })`, modelled as the sign of
the case-insensitive lexicographic comparison of the collation keys. -/
def compareStrings (a b : String) : Int :=
  lexCmp (localeKey a) (localeKey b)

/-- `compareNumbers` from App.tsx: `a - b`. -/
def compareNumbers (a b : Int) : Int := a - b

/-- `compareDates` from App.tsx: `new Date(a).getTime() - new Date(b).getTime()`,
on the pre-parsed instants of the embedding. -/
def compareDates (a b : Int) : Int := a - b

/-- The body of the `switch (rule.field)` in the comparator of
`sortedTracks`: the comparison a single rule contributes, before direction
scaling (`popularity ?? 0` normalizes an absent popularity to zero). -/
def ruleComparison (rule : SortRule) (a b : TrackRow) : Int :=
  match rule.field with
  | .name => compareStrings a.name b.name
  | .mainArtist => compareStrings a.mainArtist b.mainArtist
  | .album => compareStrings a.album b.album
  | .addedAt => compareDates a.addedAt b.addedAt
  | .popularity => compareNumbers (a.popularity.getD 0) (b.popularity.getD 0)
  | .durationMs => compareNumbers a.durationMs b.durationMs

/-- `rule.direction === "asc" ? 1 : -1`. -/
def directionFactor : SortDirection → Int
  | .asc => 1
  | .desc => -1

/-- The comparator passed to `cloned.sort` in `sortedTracks`: walk the rules
in priority order, return the first non-zero field comparison scaled by the
direction, and fall back to comparing `originalIndex` when every rule ties. -/
def trackComparator (rules : List SortRule) (a b : TrackRow) : Int :=
  match rules with
  | [] => compareNumbers a.originalIndex b.originalIndex
  | rule :: rest =>
      let comparison := ruleComparison rule a b
      if comparison ≠ 0 then comparison * directionFactor rule.direction
      else trackComparator rest a b

/-- `sortedTracks` from App.tsx: the input is returned unchanged when the
track list or the rule list is empty; otherwise a copy is sorted with
`trackComparator`. The comparator is a total preorder whose ties force equal
`originalIndex`, so any comparison sort returns the same sequence; a stable
insertion sort stands in for `Array.prototype.sort`. -/
def sortedTracks (rules : List SortRule) (tracks : List TrackRow) : List TrackRow :=
  if tracks.isEmpty || rules.isEmpty then tracks
  else tracks.insertionSort (fun a b => trackComparator rules a b ≤ 0)

/-! ## Batching (`chunkArray`, `handleCreatePlaylist`) -/

/-- `chunkArray` from App.tsx: slices of `chunkSize` from the front in order.
The source loop (`for i = 0; i < length; i += chunkSize`) never terminates
when `chunkSize = 0` and the list is non-empty; the embedding returns `[]`
in that unreachable case (the only call site uses 100). -/
def chunkArray {α : Type} : List α → Nat → List (List α)
  | _, 0 => []
  | [], _ + 1 => []
  | x :: xs, n + 1 =>
      (x :: xs).take (n + 1) :: chunkArray ((x :: xs).drop (n + 1)) (n + 1)
  termination_by source _ => source.length
  decreasing_by simp; omega

/-- The batch-append requests `handleCreatePlaylist` issues after creating
the playlist: one POST to `/playlists/<id>/tracks` per chunk of at most 100
URIs, in chunk order (the `for ... of` awaits each before the next). -/
def addTrackBatchRequests (playlistId : String) (uris : List String) :
    List (String × List String) :=
  (chunkArray uris 100).map (fun chunk => ("/playlists/" ++ playlistId ++ "/tracks", chunk))

/-! ## The paginated track fetch (`fetchPlaylistTracks` in App.tsx)

The pages the server returns are given as a list consumed in order; each
page carries its items and its `next` link. -/

/-- An artist object as it appears in a track payload. -/
structure SpotifyArtist where
  name : String
  deriving Repr, DecidableEq

/-- An album object as it appears in a track payload. -/
structure SpotifyAlbum where
  name : String
  deriving Repr, DecidableEq

/-- The track object inside a playlist item; the provider may omit or null
any of the optional fields. -/
structure SpotifyTrack where
  id : Option String
  uri : Option String
  name : String
  artists : Option (List SpotifyArtist)
  album : Option SpotifyAlbum
  popularity : Option Int
  duration_ms : Option Int
  deriving Repr, DecidableEq

/-- One item of a playlist-tracks page; `track` may be null (removed or
region-blocked content). `added_at` is the parsed instant of the timestamp. -/
structure SpotifyPlaylistItem where
  track : Option SpotifyTrack
  added_at : Int
  deriving Repr, DecidableEq

/-- One page of the playlist-tracks endpoint. -/
structure TracksPage where
  items : List SpotifyPlaylistItem
  next : Option String
  deriving Repr, DecidableEq

/-- The body of the item loop in `fetchPlaylistTracks`: an item is skipped
(`continue`) when `!item.track || !item.track.uri`, i.e. when the track is
null or its URI is absent or empty; otherwise the `TrackRow` pushed for the
current value of `index` is built exactly as in the source. -/
def rowOfItem (playlistId : String) (index : Nat) (item : SpotifyPlaylistItem) :
    Option TrackRow :=
  match item.track with
  | none => none
  | some t =>
      match t.uri with
      | none => none
      | some u =>
          if u = "" then none
          else some {
            id := t.id.getD (playlistId ++ "-" ++ toString index)
            uri := u
            name := t.name
            artists := (t.artists.map fun l =>
              String.intercalate ", " (l.map SpotifyArtist.name)).getD "Không rõ"
            mainArtist := ((t.artists.bind List.head?).map SpotifyArtist.name).getD "Không rõ"
            album := (t.album.map SpotifyAlbum.name).getD "Không rõ"
            popularity := t.popularity
            durationMs := t.duration_ms.getD 0
            addedAt := item.added_at
            originalIndex := Int.ofNat index }

/-- The `for (const item of response.items)` loop of `fetchPlaylistTracks`:
emit the rows of one page in item order, advancing `index` only when a row is
emitted. Returns the emitted rows and the index value after the page. -/
def processItems (playlistId : String) :
    List SpotifyPlaylistItem → Nat → List TrackRow × Nat
  | [], index => ([], index)
  | item :: rest, index =>
      match rowOfItem playlistId index item with
      | none => processItems playlistId rest index
      | some row =>
          let (rows, index') := processItems playlistId rest (index + 1)
          (row :: rows, index')

/-- The `while (url)` loop of `fetchPlaylistTracks` over the pages the server
returns in order: process the current page, stop when its `next` link is
absent, otherwise continue on the remaining pages with the advanced index,
concatenating in received order. -/
def fetchPlaylistTracks (playlistId : String) :
    List TracksPage → Nat → List TrackRow
  | [], _ => []
  | page :: rest, index =>
      let (rows, index') := processItems playlistId page.items index
      match page.next with
      | none => rows
      | some _ => rows ++ fetchPlaylistTracks playlistId rest index'

/-! ## Concrete instances used to exercise the definitions -/

/-- The row `{name: "B", popularity: 50, idx: 0}` of the sort scenario. -/
def trackRowB : TrackRow :=
  { id := "b", uri := "spotify:track:b", name := "B", artists := "x", mainArtist := "x",
    album := "al", popularity := some 50, durationMs := 1000, addedAt := 0,
    originalIndex := 0 }

/-- The row `{name: "A", popularity: 50, idx: 1}` of the sort scenario. -/
def trackRowA : TrackRow :=
  { trackRowB with id := "a", uri := "spotify:track:a", name := "A", originalIndex := 1 }

/-- The row `{name: "C", popularity: 90, idx: 2}` of the sort scenario. -/
def trackRowC : TrackRow :=
  { trackRowB with
    id := "c"
    uri := "spotify:track:c"
    name := "C"
    popularity := some 90
    originalIndex := 2 }

/-- The rules of the sort scenario: popularity descending, then name
ascending. -/
def demoRules : List SortRule :=
  [{ id := "r1", field := .popularity, direction := .desc },
   { id := "r2", field := .name, direction := .asc }]

/-- A token set expiring at t = 1000000 ms. -/
def demoTokens : TokenSet :=
  { accessToken := "old-access", refreshToken := "refresh-1",
    expiresAt := 1000000, scope := "playlist" }

/-- A refresh that swaps in a new access token and a far-future expiry. -/
def demoRefreshFn : TokenSet → TokenSet :=
  fun t => { t with accessToken := "new-access", expiresAt := 9000000 }

/-- A token-endpoint body that omits `refresh_token`. -/
def demoRespNoRefresh : TokenEndpointResponse :=
  { access_token := "acc-2", refresh_token := none, expires_in := 3600, scope := "playlist" }

/-- A token-endpoint body that carries a refresh token. -/
def demoRespFull : TokenEndpointResponse :=
  { access_token := "acc-1", refresh_token := some "rr", expires_in := 3600, scope := "playlist" }

/-- Storage holding a pending login attempt: state `"s"`, verifier `"v"`. -/
def demoPendingStorage : Storage :=
  { token := none, stateKey := some "s", verifierKey := some "v" }

/-- A parse function standing for `JSON.parse` on two fixed inputs. -/
def demoParse : String → Option JsonValue :=
  fun r =>
    if r = "good" then
      some (.obj [("accessToken", .str "a"), ("refreshToken", .str "r")])
    else if r = "num" then some (.num 3)
    else none

/-- A server answering 429 to the first send and 200 to every later one. -/
def demoServer429Then200 : Nat → Int :=
  fun i => if i = 0 then 429 else 200

/-- A track page item whose track is null (removed content). -/
def demoNullItem : SpotifyPlaylistItem := { track := none, added_at := 5 }

/-- A track object whose URI is absent. -/
def demoNoUriTrack : SpotifyTrack :=
  { id := some "x", uri := none, name := "X", artists := none,
    album := none, popularity := none, duration_ms := none }

/-- A track page item whose track lacks a URI. -/
def demoNoUriItem : SpotifyPlaylistItem :=
  { track := some demoNoUriTrack, added_at := 6 }

/-- A playable track object named `nm`. -/
def demoTrack (nm : String) : SpotifyTrack :=
  { id := some nm, uri := some ("spotify:track:" ++ nm), name := nm,
    artists := some [{ name := "artist" }], album := some { name := "album" },
    popularity := some 7, duration_ms := some 1000 }

/-- A playable track item. -/
def demoItem (nm : String) : SpotifyPlaylistItem :=
  { track := some (demoTrack nm), added_at := 7 }

/-- Two pages: the first (with a `next` link) holds a playable item, a null
track and a second playable item; the last page holds a no-URI item and a
playable item. -/
def demoPages : List TracksPage :=
  [{ items := [demoItem "one", demoNullItem, demoItem "two"], next := some "/page2" },
   { items := [demoNoUriItem, demoItem "three"], next := none }]

/-! ## Lemmas: the lexicographic string comparison -/

theorem lexCmp_eq_zero (xs : List Nat) : ∀ ys, lexCmp xs ys = 0 → xs = ys := by
  induction xs with
  | nil =>
    intro ys h
    cases ys with
    | nil => rfl
    | cons b bs => simp [lexCmp] at h
  | cons a as ih =>
    intro ys h
    cases ys with
    | nil => simp [lexCmp] at h
    | cons b bs =>
      rcases Nat.lt_trichotomy a b with hab | hab | hab
      · simp [lexCmp, hab, Nat.lt_asymm hab] at h
      · subst hab
        simp only [lexCmp, Nat.lt_irrefl, if_false] at h
        rw [ih bs h]
      · simp [lexCmp, hab, Nat.lt_asymm hab] at h

theorem lexCmp_self (xs : List Nat) : lexCmp xs xs = 0 := by
  induction xs with
  | nil => rfl
  | cons a as ih => simp [lexCmp, ih]

theorem lexCmp_swap (xs : List Nat) : ∀ ys, lexCmp ys xs = -(lexCmp xs ys) := by
  induction xs with
  | nil =>
    intro ys
    cases ys <;> simp [lexCmp]
  | cons a as ih =>
    intro ys
    cases ys with
    | nil => simp [lexCmp]
    | cons b bs =>
      rcases Nat.lt_trichotomy a b with hab | hab | hab
      · simp [lexCmp, hab, Nat.lt_asymm hab]
      · subst hab
        simp only [lexCmp, Nat.lt_irrefl, if_false]
        exact ih bs
      · simp [lexCmp, hab, Nat.lt_asymm hab]

theorem lexCmp_lt_trans (xs : List Nat) :
    ∀ ys zs, lexCmp xs ys < 0 → lexCmp ys zs < 0 → lexCmp xs zs < 0 := by
  induction xs with
  | nil =>
    intro ys zs h1 h2
    cases ys with
    | nil => simp [lexCmp] at h1
    | cons b bs =>
      cases zs with
      | nil => simp [lexCmp] at h2
      | cons c cs => simp [lexCmp]
  | cons a as ih =>
    intro ys zs h1 h2
    cases ys with
    | nil => simp [lexCmp] at h1
    | cons b bs =>
      cases zs with
      | nil => simp [lexCmp] at h2
      | cons c cs =>
        rcases Nat.lt_trichotomy a b with hab | hab | hab
        · rcases Nat.lt_trichotomy b c with hbc | hbc | hbc
          · simp [lexCmp, show a < c by omega]
          · subst hbc
            simp [lexCmp, hab]
          · simp [lexCmp, hbc, Nat.lt_asymm hbc] at h2
        · subst hab
          simp only [lexCmp, Nat.lt_irrefl, if_false] at h1
          rcases Nat.lt_trichotomy a c with hac | hac | hac
          · simp [lexCmp, hac]
          · subst hac
            simp only [lexCmp, Nat.lt_irrefl, if_false] at h2 ⊢
            exact ih bs cs h1 h2
          · simp [lexCmp, hac, Nat.lt_asymm hac] at h2
        · simp [lexCmp, hab, Nat.lt_asymm hab] at h1

/-! ## Lemmas: one rule's comparison is a lawful three-way comparison -/

theorem compareStrings_swap (a b : String) : compareStrings b a = -(compareStrings a b) :=
  lexCmp_swap _ _

theorem compareStrings_key_eq (a b : String) (h : compareStrings a b = 0) :
    localeKey a = localeKey b :=
  lexCmp_eq_zero _ _ h

theorem compareStrings_lt_trans (a b c : String) (h1 : compareStrings a b < 0)
    (h2 : compareStrings b c < 0) : compareStrings a c < 0 :=
  lexCmp_lt_trans _ _ _ h1 h2

theorem ruleComparison_swap (rule : SortRule) (a b : TrackRow) :
    ruleComparison rule b a = -(ruleComparison rule a b) := by
  rcases rule with ⟨i, field, dir⟩
  cases field <;> simp only [ruleComparison, compareNumbers, compareDates]
  · exact compareStrings_swap _ _
  · exact compareStrings_swap _ _
  · exact compareStrings_swap _ _
  · omega
  · omega
  · omega

theorem ruleComparison_zero_subst (rule : SortRule) (a b : TrackRow)
    (h : ruleComparison rule a b = 0) (x : TrackRow) :
    ruleComparison rule a x = ruleComparison rule b x := by
  rcases rule with ⟨i, field, dir⟩
  cases field <;>
    simp only [ruleComparison, compareStrings, compareNumbers, compareDates] at h ⊢
  · rw [lexCmp_eq_zero _ _ h]
  · rw [lexCmp_eq_zero _ _ h]
  · rw [lexCmp_eq_zero _ _ h]
  · omega
  · omega
  · omega

theorem ruleComparison_lt_trans (rule : SortRule) (a b c : TrackRow)
    (h1 : ruleComparison rule a b < 0) (h2 : ruleComparison rule b c < 0) :
    ruleComparison rule a c < 0 := by
  rcases rule with ⟨i, field, dir⟩
  cases field <;>
    simp only [ruleComparison, compareNumbers, compareDates] at h1 h2 ⊢
  · exact compareStrings_lt_trans _ _ _ h1 h2
  · exact compareStrings_lt_trans _ _ _ h1 h2
  · exact compareStrings_lt_trans _ _ _ h1 h2
  · omega
  · omega
  · omega

/-! ## Lemmas: the composed track comparator -/

theorem trackComparator_cons (rule : SortRule) (rest : List SortRule) (a b : TrackRow) :
    trackComparator (rule :: rest) a b =
      if ruleComparison rule a b ≠ 0 then
        ruleComparison rule a b * directionFactor rule.direction
      else trackComparator rest a b := rfl

theorem trackComparator_swap (rules : List SortRule) (a b : TrackRow) :
    trackComparator rules b a = -(trackComparator rules a b) := by
  induction rules with
  | nil => simp only [trackComparator, compareNumbers]; omega
  | cons rule rest ih =>
    rw [trackComparator_cons, trackComparator_cons]
    by_cases hc : ruleComparison rule a b = 0
    · have hc' : ruleComparison rule b a = 0 := by
        rw [ruleComparison_swap, hc, neg_zero]
      rw [if_neg (fun hh => hh hc'), if_neg (fun hh => hh hc)]
      exact ih
    · have hc' : ruleComparison rule b a ≠ 0 := by
        rw [ruleComparison_swap]
        exact neg_ne_zero.mpr hc
      rw [if_pos hc', if_pos hc, ruleComparison_swap, neg_mul]

theorem trackComparator_zero_index (rules : List SortRule) (a b : TrackRow)
    (h : trackComparator rules a b = 0) : a.originalIndex = b.originalIndex := by
  induction rules with
  | nil => simp only [trackComparator, compareNumbers] at h; omega
  | cons rule rest ih =>
    rw [trackComparator_cons] at h
    by_cases hc : ruleComparison rule a b = 0
    · rw [if_neg (fun hh => hh hc)] at h
      exact ih h
    · rw [if_pos hc] at h
      exfalso
      rcases rule with ⟨i, field, dir⟩
      cases dir <;> simp only [directionFactor] at h <;> omega

theorem trackComparator_zero_subst (rules : List SortRule) (a b : TrackRow)
    (h : trackComparator rules a b = 0) (x : TrackRow) :
    trackComparator rules a x = trackComparator rules b x := by
  induction rules with
  | nil =>
    simp only [trackComparator, compareNumbers]
    have := trackComparator_zero_index [] a b h
    omega
  | cons rule rest ih =>
    rw [trackComparator_cons] at h
    by_cases hc : ruleComparison rule a b = 0
    · rw [if_neg (fun hh => hh hc)] at h
      have hx := ruleComparison_zero_subst rule a b hc x
      rw [trackComparator_cons, trackComparator_cons, hx]
      split_ifs with h2
      · rfl
      · exact ih h
    · rw [if_pos hc] at h
      exfalso
      rcases rule with ⟨i, field, dir⟩
      cases dir <;> simp only [directionFactor] at h <;> omega

theorem trackComparator_lt_trans (rules : List SortRule) (a b c : TrackRow)
    (h1 : trackComparator rules a b < 0) (h2 : trackComparator rules b c < 0) :
    trackComparator rules a c < 0 := by
  induction rules with
  | nil =>
    simp only [trackComparator, compareNumbers] at h1 h2 ⊢
    omega
  | cons rule rest ih =>
    by_cases hab : ruleComparison rule a b = 0
    · have hsub := ruleComparison_zero_subst rule a b hab c
      rw [trackComparator_cons, if_neg (fun hh => hh hab)] at h1
      by_cases hbc : ruleComparison rule b c = 0
      · have hac : ruleComparison rule a c = 0 := by rw [hsub]; exact hbc
        rw [trackComparator_cons, if_neg (fun hh => hh hbc)] at h2
        rw [trackComparator_cons, if_neg (fun hh => hh hac)]
        exact ih h1 h2
      · have hacne : ruleComparison rule a c ≠ 0 := by rw [hsub]; exact hbc
        rw [trackComparator_cons, if_pos hbc] at h2
        rw [trackComparator_cons, if_pos hacne, hsub]
        exact h2
    · by_cases hbc : ruleComparison rule b c = 0
      · have hcb : ruleComparison rule c b = 0 := by
          rw [ruleComparison_swap, hbc, neg_zero]
        have hsub := ruleComparison_zero_subst rule c b hcb a
        have haceq : ruleComparison rule a c = ruleComparison rule a b :=
          calc ruleComparison rule a c
              = -(ruleComparison rule c a) := by rw [ruleComparison_swap rule c a]
            _ = -(ruleComparison rule b a) := by rw [hsub]
            _ = ruleComparison rule a b := by rw [ruleComparison_swap rule a b, neg_neg]
        have hacne : ruleComparison rule a c ≠ 0 := by rw [haceq]; exact hab
        rw [trackComparator_cons, if_pos hab] at h1
        rw [trackComparator_cons, if_pos hacne, haceq]
        exact h1
      · rw [trackComparator_cons, if_pos hab] at h1
        rw [trackComparator_cons, if_pos hbc] at h2
        have hpair : (ruleComparison rule a b < 0 ∧ ruleComparison rule b c < 0) ∨
            (0 < ruleComparison rule a b ∧ 0 < ruleComparison rule b c) := by
          rcases rule with ⟨i, field, dir⟩
          cases dir <;> simp only [directionFactor] at h1 h2 <;> omega
        rcases hpair with ⟨u, v⟩ | ⟨u, v⟩
        · have w := ruleComparison_lt_trans rule a b c u v
          have hacne : ruleComparison rule a c ≠ 0 := by omega
          rw [trackComparator_cons, if_pos hacne]
          rcases rule with ⟨i, field, dir⟩
          cases dir <;> simp only [directionFactor] at h1 h2 ⊢ <;> omega
        · have u' : ruleComparison rule b a < 0 := by
            rw [ruleComparison_swap]; omega
          have v' : ruleComparison rule c b < 0 := by
            rw [ruleComparison_swap]; omega
          have hca := ruleComparison_lt_trans rule c b a v' u'
          have hsw := ruleComparison_swap rule a c
          have w : 0 < ruleComparison rule a c := by omega
          have hacne : ruleComparison rule a c ≠ 0 := by omega
          rw [trackComparator_cons, if_pos hacne]
          rcases rule with ⟨i, field, dir⟩
          cases dir <;> simp only [directionFactor] at h1 h2 ⊢ <;> omega

theorem trackComparator_le_trans (rules : List SortRule) (a b c : TrackRow)
    (h1 : trackComparator rules a b ≤ 0) (h2 : trackComparator rules b c ≤ 0) :
    trackComparator rules a c ≤ 0 := by
  rcases lt_or_eq_of_le h1 with h1' | h1'
  · rcases lt_or_eq_of_le h2 with h2' | h2'
    · exact le_of_lt (trackComparator_lt_trans rules a b c h1' h2')
    · have hx := trackComparator_zero_subst rules b c h2' a
      have hswap : trackComparator rules a c = trackComparator rules a b :=
        calc trackComparator rules a c
            = -(trackComparator rules c a) := trackComparator_swap rules c a
          _ = -(trackComparator rules b a) := by rw [← hx]
          _ = trackComparator rules a b := by rw [trackComparator_swap rules a b, neg_neg]
      rw [hswap]
      exact h1
  · rw [trackComparator_zero_subst rules a b h1' c]
    exact h2

theorem trackComparator_total (rules : List SortRule) (a b : TrackRow) :
    trackComparator rules a b ≤ 0 ∨ trackComparator rules b a ≤ 0 := by
  have := trackComparator_swap rules a b
  omega

/-! ## Lemmas: the authorized request pipeline -/

theorem authorizedFetch_succ (now : Int) (refreshFn : TokenSet → TokenSet)
    (server : Nat → Int) (fuel : Nat) (tokens : TokenSet) (attempt sendIdx : Nat) :
    authorizedFetch now refreshFn server (fuel + 1) tokens attempt sendIdx =
      if server sendIdx = 401 ∧ attempt = 0 then
        prependSend
          { authHeader := "Bearer " ++ (ensureFreshAccessToken now refreshFn tokens).1,
            status := server sendIdx }
          ((ensureFreshAccessToken now refreshFn tokens).2.2 + 1)
          (authorizedFetch now refreshFn server fuel
            (refreshFn (ensureFreshAccessToken now refreshFn tokens).2.1)
            (attempt + 1) (sendIdx + 1))
      else if server sendIdx = 429 then
        prependSend
          { authHeader := "Bearer " ++ (ensureFreshAccessToken now refreshFn tokens).1,
            status := server sendIdx }
          (ensureFreshAccessToken now refreshFn tokens).2.2
          (authorizedFetch now refreshFn server fuel
            (ensureFreshAccessToken now refreshFn tokens).2.1
            (attempt + 1) (sendIdx + 1))
      else
        some { trace := [{ authHeader := "Bearer " ++ (ensureFreshAccessToken now refreshFn tokens).1,
                           status := server sendIdx }],
               status := server sendIdx,
               tokens := (ensureFreshAccessToken now refreshFn tokens).2.1,
               refreshes := (ensureFreshAccessToken now refreshFn tokens).2.2 } := rfl

theorem authorizedFetch_succ_ensure (now : Int) (refreshFn : TokenSet → TokenSet)
    (server : Nat → Int) (fuel : Nat) (tokens : TokenSet) (attempt sendIdx : Nat)
    (acc : String) (tk : TokenSet) (n : Nat)
    (he : ensureFreshAccessToken now refreshFn tokens = (acc, tk, n)) :
    authorizedFetch now refreshFn server (fuel + 1) tokens attempt sendIdx =
      if server sendIdx = 401 ∧ attempt = 0 then
        prependSend { authHeader := "Bearer " ++ acc, status := server sendIdx } (n + 1)
          (authorizedFetch now refreshFn server fuel (refreshFn tk) (attempt + 1) (sendIdx + 1))
      else if server sendIdx = 429 then
        prependSend { authHeader := "Bearer " ++ acc, status := server sendIdx } n
          (authorizedFetch now refreshFn server fuel tk (attempt + 1) (sendIdx + 1))
      else
        some { trace := [{ authHeader := "Bearer " ++ acc, status := server sendIdx }],
               status := server sendIdx, tokens := tk, refreshes := n } := by
  rw [authorizedFetch_succ, he]

theorem authorizedFetch_first_send (now : Int) (refreshFn : TokenSet → TokenSet)
    (server : Nat → Int) (fuel : Nat) (tokens : TokenSet) (attempt sendIdx : Nat)
    (r : FetchResult)
    (h : authorizedFetch now refreshFn server (fuel + 1) tokens attempt sendIdx = some r) :
    r.trace.head? =
      some { authHeader := "Bearer " ++ (ensureFreshAccessToken now refreshFn tokens).1,
             status := server sendIdx } := by
  rw [authorizedFetch_succ] at h
  split_ifs at h with h401 h429
  · cases hrec : authorizedFetch now refreshFn server fuel
        (refreshFn (ensureFreshAccessToken now refreshFn tokens).2.1)
        (attempt + 1) (sendIdx + 1) with
    | none =>
        rw [hrec] at h
        exact Option.noConfusion h
    | some r' =>
        rw [hrec] at h
        simp only [prependSend, Option.some.injEq] at h
        rw [← h]
        rfl
  · cases hrec : authorizedFetch now refreshFn server fuel
        (ensureFreshAccessToken now refreshFn tokens).2.1
        (attempt + 1) (sendIdx + 1) with
    | none =>
        rw [hrec] at h
        exact Option.noConfusion h
    | some r' =>
        rw [hrec] at h
        simp only [prependSend, Option.some.injEq] at h
        rw [← h]
        rfl
  · rw [Option.some.injEq] at h
    rw [← h]
    rfl

theorem authorizedFetch_always429_none (now : Int) (refreshFn : TokenSet → TokenSet)
    (server : Nat → Int) (h : ∀ i, server i = 429) :
    ∀ (fuel : Nat) (tokens : TokenSet) (attempt sendIdx : Nat),
      authorizedFetch now refreshFn server fuel tokens attempt sendIdx = none := by
  intro fuel
  induction fuel with
  | zero => intro tokens attempt sendIdx; rfl
  | succ fuel ih =>
    intro tokens attempt sendIdx
    have h401 : ¬(server sendIdx = 401 ∧ attempt = 0) := by
      rw [h sendIdx]
      intro hc
      exact absurd hc.1 (by decide)
    rw [authorizedFetch_succ, if_neg h401, if_pos (h sendIdx), ih]
    rfl

theorem authorizedFetch_double401 (now : Int) (refreshFn : TokenSet → TokenSet)
    (server : Nat → Int) (tokens : TokenSet) (fuel : Nat)
    (h0 : server 0 = 401) (h1 : server 1 = 401)
    (hf : now + 60000 < tokens.expiresAt)
    (hf' : now + 60000 < (refreshFn tokens).expiresAt) :
    authorizedFetch now refreshFn server (fuel + 2) tokens 0 0 =
      some { trace := [{ authHeader := "Bearer " ++ tokens.accessToken, status := 401 },
                       { authHeader := "Bearer " ++ (refreshFn tokens).accessToken,
                         status := 401 }],
             status := 401, tokens := refreshFn tokens, refreshes := 1 } := by
  have e1 : ensureFreshAccessToken now refreshFn tokens = (tokens.accessToken, tokens, 0) := by
    rw [ensureFreshAccessToken, if_pos hf]
  have e2 : ensureFreshAccessToken now refreshFn (refreshFn tokens) =
      ((refreshFn tokens).accessToken, refreshFn tokens, 0) := by
    rw [ensureFreshAccessToken, if_pos hf']
  have step2 : authorizedFetch now refreshFn server (fuel + 1) (refreshFn tokens) 1 1 =
      some { trace := [{ authHeader := "Bearer " ++ (refreshFn tokens).accessToken,
                         status := 401 }],
             status := 401, tokens := refreshFn tokens, refreshes := 0 } := by
    rw [authorizedFetch_succ_ensure now refreshFn server fuel (refreshFn tokens) 1 1 _ _ _ e2,
      h1]
    rw [if_neg (by intro hc; exact absurd hc.2 (by decide)), if_neg (by decide)]
  show authorizedFetch now refreshFn server (fuel + 1 + 1) tokens 0 0 = _
  rw [authorizedFetch_succ_ensure now refreshFn server (fuel + 1) tokens 0 0 _ _ _ e1, h0,
    if_pos ⟨rfl, rfl⟩]
  show prependSend _ _ (authorizedFetch now refreshFn server (fuel + 1) (refreshFn tokens) 1 1)
      = _
  rw [step2]
  rfl

/-! ## Lemmas: the paginated track fetch -/

theorem rowOfItem_originalIndex (pid : String) (index : Nat) (item : SpotifyPlaylistItem)
    (row : TrackRow) (h : rowOfItem pid index item = some row) :
    row.originalIndex = Int.ofNat index := by
  cases htr : item.track with
  | none => simp [rowOfItem, htr] at h
  | some t =>
    cases hu : t.uri with
    | none => simp [rowOfItem, htr, hu] at h
    | some u =>
      by_cases hue : u = ""
      · simp [rowOfItem, htr, hu, hue] at h
      · simp only [rowOfItem, htr, hu, if_neg hue, Option.some.injEq] at h
        rw [← h]

theorem processItems_skip (pid : String) (item : SpotifyPlaylistItem)
    (rest : List SpotifyPlaylistItem) (index : Nat)
    (h : rowOfItem pid index item = none) :
    processItems pid (item :: rest) index = processItems pid rest index := by
  rw [processItems, h]

theorem processItems_emit (pid : String) (item : SpotifyPlaylistItem)
    (rest : List SpotifyPlaylistItem) (index : Nat) (row : TrackRow)
    (h : rowOfItem pid index item = some row) :
    processItems pid (item :: rest) index =
      (row :: (processItems pid rest (index + 1)).1, (processItems pid rest (index + 1)).2) := by
  rw [processItems, h]

theorem range'_split (s m n : Nat) :
    List.range' s (m + n) = List.range' s m ++ List.range' (s + m) n := by
  have h := List.range'_append s m n 1
  rw [one_mul] at h
  rw [Nat.add_comm n m] at h
  exact h.symm

theorem processItems_indices (pid : String) :
    ∀ (items : List SpotifyPlaylistItem) (index : Nat),
      ((processItems pid items index).1.map TrackRow.originalIndex =
        (List.range' index (processItems pid items index).1.length).map Int.ofNat)
      ∧ (processItems pid items index).2 = index + (processItems pid items index).1.length := by
  intro items
  induction items with
  | nil => intro index; exact ⟨rfl, rfl⟩
  | cons item rest ih =>
    intro index
    cases hrow : rowOfItem pid index item with
    | none =>
      rw [processItems_skip pid item rest index hrow]
      exact ih index
    | some row =>
      rw [processItems_emit pid item rest index row hrow]
      refine ⟨?_, ?_⟩
      · simp only [List.map_cons, List.length_cons, List.range'_succ]
        rw [rowOfItem_originalIndex pid index item row hrow, (ih (index + 1)).1]
      · simp only [List.length_cons]
        rw [(ih (index + 1)).2]
        omega

theorem fetchPlaylistTracks_last (pid : String) (page : TracksPage)
    (rest : List TracksPage) (index : Nat) (hn : page.next = none) :
    fetchPlaylistTracks pid (page :: rest) index = (processItems pid page.items index).1 := by
  rw [fetchPlaylistTracks, hn]

theorem fetchPlaylistTracks_step (pid : String) (page : TracksPage)
    (rest : List TracksPage) (index : Nat) (nx : String) (hn : page.next = some nx) :
    fetchPlaylistTracks pid (page :: rest) index =
      (processItems pid page.items index).1 ++
        fetchPlaylistTracks pid rest (processItems pid page.items index).2 := by
  rw [fetchPlaylistTracks, hn]

theorem fetchPlaylistTracks_indices (pid : String) :
    ∀ (pages : List TracksPage) (index : Nat),
      (fetchPlaylistTracks pid pages index).map TrackRow.originalIndex =
        (List.range' index (fetchPlaylistTracks pid pages index).length).map Int.ofNat := by
  intro pages
  induction pages with
  | nil => intro index; rfl
  | cons page rest ih =>
    intro index
    cases hn : page.next with
    | none =>
      rw [fetchPlaylistTracks_last pid page rest index hn]
      exact (processItems_indices pid page.items index).1
    | some nx =>
      rw [fetchPlaylistTracks_step pid page rest index nx hn]
      rw [List.map_append, List.length_append, range'_split, List.map_append]
      rw [(processItems_indices pid page.items index).1, ih]
      rw [(processItems_indices pid page.items index).2]

/-! ## Lemmas: chunking -/

theorem chunkArray_nil {α : Type} (n : Nat) : chunkArray ([] : List α) n = [] := by
  cases n with
  | zero => rw [chunkArray]
  | succ m => rw [chunkArray]

theorem chunkArray_cons_of_ne_nil {α : Type} (l : List α) (n : Nat) (hn : n ≠ 0)
    (hl : l ≠ []) :
    chunkArray l n = l.take n :: chunkArray (l.drop n) n := by
  obtain ⟨m, rfl⟩ := Nat.exists_eq_succ_of_ne_zero hn
  cases l with
  | nil => exact absurd rfl hl
  | cons x xs => rw [chunkArray]

theorem chunkArray_flatten_aux {α : Type} (n : Nat) :
    ∀ (k : Nat) (l : List α), l.length ≤ k → (chunkArray l (n + 1)).flatten = l := by
  intro k
  induction k with
  | zero =>
    intro l hl
    have hnil : l = [] := List.eq_nil_of_length_eq_zero (Nat.le_zero.mp hl)
    subst hnil
    rw [chunkArray_nil]
    rfl
  | succ k ih =>
    intro l hl
    cases l with
    | nil => rw [chunkArray_nil]; rfl
    | cons x xs =>
      rw [chunkArray_cons_of_ne_nil (x :: xs) (n + 1) (Nat.succ_ne_zero n) (by simp),
        List.flatten_cons, ih]
      · exact List.take_append_drop _ _
      · rw [List.length_drop]
        simp only [List.length_cons] at hl ⊢
        omega

theorem chunkArray_flatten {α : Type} (l : List α) (n : Nat) :
    (chunkArray l (n + 1)).flatten = l :=
  chunkArray_flatten_aux n l.length l le_rfl

theorem chunkArray_mem_length_aux {α : Type} (n : Nat) :
    ∀ (k : Nat) (l c : List α), l.length ≤ k → c ∈ chunkArray l (n + 1) →
      c.length ≤ n + 1 := by
  intro k
  induction k with
  | zero =>
    intro l c hl hc
    have hnil : l = [] := List.eq_nil_of_length_eq_zero (Nat.le_zero.mp hl)
    subst hnil
    rw [chunkArray_nil] at hc
    exact absurd hc (List.not_mem_nil c)
  | succ k ih =>
    intro l c hl hc
    cases l with
    | nil =>
      rw [chunkArray_nil] at hc
      exact absurd hc (List.not_mem_nil c)
    | cons x xs =>
      rw [chunkArray_cons_of_ne_nil (x :: xs) (n + 1) (Nat.succ_ne_zero n) (by simp)] at hc
      rcases List.mem_cons.mp hc with hc' | hc'
      · rw [hc']
        simp only [List.length_take]
        omega
      · refine ih _ c ?_ hc'
        rw [List.length_drop]
        simp only [List.length_cons] at hl ⊢
        omega

theorem chunkArray_mem_length {α : Type} (l c : List α) (n : Nat)
    (hc : c ∈ chunkArray l (n + 1)) : c.length ≤ n + 1 :=
  chunkArray_mem_length_aux n l.length l c le_rfl hc

theorem chunkArray_sizes_250 {α : Type} (uris : List α) (h250 : uris.length = 250) :
    (chunkArray uris 100).map List.length = [100, 100, 50] := by
  have h1 : uris ≠ [] := by
    intro hnil
    rw [hnil] at h250
    simp at h250
  have hd1 : (uris.drop 100).length = 150 := by
    rw [List.length_drop, h250]
  have h2 : uris.drop 100 ≠ [] := by
    intro hnil
    rw [hnil] at hd1
    simp at hd1
  have hd2 : ((uris.drop 100).drop 100).length = 50 := by
    rw [List.length_drop, hd1]
  have h3 : (uris.drop 100).drop 100 ≠ [] := by
    intro hnil
    rw [hnil] at hd2
    simp at hd2
  have hd3 : (((uris.drop 100).drop 100).drop 100) = [] := by
    apply List.eq_nil_of_length_eq_zero
    rw [List.length_drop, hd2]
  rw [chunkArray_cons_of_ne_nil uris 100 (by decide) h1,
    chunkArray_cons_of_ne_nil (uris.drop 100) 100 (by decide) h2,
    chunkArray_cons_of_ne_nil ((uris.drop 100).drop 100) 100 (by decide) h3,
    hd3, chunkArray_nil]
  simp only [List.map_cons, List.map_nil, List.length_take]
  rw [h250, hd1, hd2]
  decide

/-! ## Lemmas: token building and login completion -/

theorem buildTokenSet_ok_refreshToken_ne (now : Int) (data : TokenEndpointResponse)
    (prev : Option String) (ts : TokenSet) (h : buildTokenSet now data prev = .ok ts) :
    ts.refreshToken ≠ "" := by
  cases hrt : data.refresh_token.orElse (fun _ => prev) with
  | none =>
    rw [buildTokenSet, hrt] at h
    exact Except.noConfusion h
  | some rt =>
    simp only [buildTokenSet, hrt] at h
    by_cases hre : rt = ""
    · rw [if_pos hre] at h; exact Except.noConfusion h
    · rw [if_neg hre, Except.ok.injEq] at h
      rw [← h]
      exact hre

theorem buildTokenSet_carry (now : Int) (data : TokenEndpointResponse) (rt : String)
    (hnone : data.refresh_token = none) (hne : rt ≠ "") :
    buildTokenSet now data (some rt) =
      .ok { accessToken := data.access_token, refreshToken := rt,
            expiresAt := now + data.expires_in * 1000, scope := data.scope } := by
  rw [buildTokenSet, hnone]
  simp only [Option.orElse]
  rw [if_neg hne]

theorem buildTokenSet_none_none (now : Int) (data : TokenEndpointResponse)
    (hnone : data.refresh_token = none) :
    buildTokenSet now data none = .error "Missing refresh token from Spotify response" := by
  rw [buildTokenSet, hnone]
  rfl

theorem completeAuthorization_cases (now : Int) (returnedState : String)
    (exchange : Except Unit TokenEndpointResponse) (st : Storage) :
    (∃ e, completeAuthorization now returnedState exchange st = (.error e, st)) ∨
    (∃ ts, completeAuthorization now returnedState exchange st =
      (.ok ts, { token := some ts, stateKey := none, verifierKey := none })) := by
  rw [completeAuthorization.eq_def]
  split_ifs with h1 h2
  · exact Or.inl ⟨_, rfl⟩
  · exact Or.inl ⟨_, rfl⟩
  · split
    · exact Or.inl ⟨_, rfl⟩
    · split
      · exact Or.inl ⟨_, rfl⟩
      · exact Or.inr ⟨_, rfl⟩

/-! ## The claims -/

/-- C1: the multi-criterion sort applies the rules in priority order (the
first non-zero field comparison, scaled by +1 for ascending and -1 for
descending, decides), falls back to `originalIndex` ascending when every rule
ties (so ties force equal indices), and the comparator is antisymmetric,
transitive and total, giving a total order; on the scenario rules
[(popularity, desc), (name, asc)] and rows [B(pop 50, idx 0), A(pop 50, idx 1),
C(pop 90, idx 2)] the output order is [C, A, B]. -/
theorem sortEngine_priority_tiebreak_total :
    ((sortedTracks demoRules [trackRowB, trackRowA, trackRowC]).map TrackRow.name
        = ["C", "A", "B"])
    ∧ (∀ (rule : SortRule) (rest : List SortRule) (a b : TrackRow),
        ruleComparison rule a b ≠ 0 →
        trackComparator (rule :: rest) a b =
          ruleComparison rule a b * directionFactor rule.direction)
    ∧ (∀ (rule : SortRule) (rest : List SortRule) (a b : TrackRow),
        ruleComparison rule a b = 0 →
        trackComparator (rule :: rest) a b = trackComparator rest a b)
    ∧ (∀ a b : TrackRow,
        trackComparator [] a b = compareNumbers a.originalIndex b.originalIndex)
    ∧ (∀ (rules : List SortRule) (a b : TrackRow),
        trackComparator rules a b = 0 → a.originalIndex = b.originalIndex)
    ∧ (∀ (rules : List SortRule) (a b : TrackRow),
        trackComparator rules b a = -(trackComparator rules a b))
    ∧ (∀ (rules : List SortRule) (a b c : TrackRow),
        trackComparator rules a b ≤ 0 → trackComparator rules b c ≤ 0 →
        trackComparator rules a c ≤ 0)
    ∧ (∀ (rules : List SortRule) (a b : TrackRow),
        trackComparator rules a b ≤ 0 ∨ trackComparator rules b a ≤ 0) := by
  refine ⟨by decide, ?_, ?_, ?_, ?_, ?_, ?_, ?_⟩
  · intro rule rest a b h
    rw [trackComparator_cons, if_pos h]
  · intro rule rest a b h
    rw [trackComparator_cons, if_neg (fun hh => hh h)]
  · intro a b
    rfl
  · exact trackComparator_zero_index
  · exact trackComparator_swap
  · exact trackComparator_le_trans
  · exact trackComparator_total

/-- C2: before a request is sent, when `now + 60000 >= expiresAt` exactly one
refresh happens and the refreshed access token — not the stale one — lands in
the `Authorization: Bearer` header of the send; when `now + 60000 < expiresAt`
no refresh happens and the current token is used. The last conjunct runs a
concrete stale-token request end to end. -/
theorem proactiveRefresh_safetyWindow :
    (∀ (now : Int) (refreshFn : TokenSet → TokenSet) (tokens : TokenSet),
        tokens.expiresAt ≤ now + 60000 →
        ensureFreshAccessToken now refreshFn tokens =
          ((refreshFn tokens).accessToken, refreshFn tokens, 1))
    ∧ (∀ (now : Int) (refreshFn : TokenSet → TokenSet) (tokens : TokenSet),
        now + 60000 < tokens.expiresAt →
        ensureFreshAccessToken now refreshFn tokens = (tokens.accessToken, tokens, 0))
    ∧ (∀ (now : Int) (refreshFn : TokenSet → TokenSet) (server : Nat → Int)
        (fuel : Nat) (tokens : TokenSet) (attempt sendIdx : Nat) (r : FetchResult),
        authorizedFetch now refreshFn server (fuel + 1) tokens attempt sendIdx = some r →
        r.trace.head? =
          some { authHeader := "Bearer " ++ (ensureFreshAccessToken now refreshFn tokens).1,
                 status := server sendIdx })
    ∧ (authorizedFetch 940000 demoRefreshFn (fun _ => 200) 1 demoTokens 0 0 =
        some { trace := [{ authHeader := "Bearer new-access", status := 200 }],
               status := 200, tokens := demoRefreshFn demoTokens, refreshes := 1 }) := by
  refine ⟨?_, ?_, ?_, by decide⟩
  · intro now refreshFn tokens h
    rw [ensureFreshAccessToken, if_neg (by omega)]
  · intro now refreshFn tokens h
    rw [ensureFreshAccessToken, if_pos h]
  · exact authorizedFetch_first_send

/-- C3: a 401 answer to the first attempt triggers exactly one retry — one
unconditional refresh (here `refreshes = 1` even though the token was still
fresh), one resend carrying the refreshed token — and a second 401 is
returned as the final outcome with exactly two sends, no third attempt. The
last conjunct runs the double-401 scenario concretely. -/
theorem unauthorized_retry_exactly_once :
    (∀ (now : Int) (refreshFn : TokenSet → TokenSet) (server : Nat → Int)
        (tokens : TokenSet) (fuel : Nat),
        server 0 = 401 → server 1 = 401 →
        now + 60000 < tokens.expiresAt →
        now + 60000 < (refreshFn tokens).expiresAt →
        authorizedFetch now refreshFn server (fuel + 2) tokens 0 0 =
          some { trace := [{ authHeader := "Bearer " ++ tokens.accessToken, status := 401 },
                           { authHeader := "Bearer " ++ (refreshFn tokens).accessToken,
                             status := 401 }],
                 status := 401, tokens := refreshFn tokens, refreshes := 1 })
    ∧ (authorizedFetch 0 demoRefreshFn (fun _ => 401) 7 demoTokens 0 0 =
        some { trace := [{ authHeader := "Bearer old-access", status := 401 },
                         { authHeader := "Bearer new-access", status := 401 }],
               status := 401, tokens := demoRefreshFn demoTokens, refreshes := 1 }) := by
  refine ⟨?_, by decide⟩
  intro now refreshFn server tokens fuel h0 h1 hf hf'
  exact authorizedFetch_double401 now refreshFn server tokens fuel h0 h1 hf hf'

/-- C4: `buildTokenSet` only ever returns records with a non-empty refresh
token; when the response omits `refresh_token` the previous one is carried
forward, and with neither available it fails; `refreshAccessToken` persists
only such records (a storage whose token slot changed holds a record with a
non-empty refresh token). -/
theorem persisted_refreshToken_nonempty :
    (∀ (now : Int) (data : TokenEndpointResponse) (prev : Option String) (ts : TokenSet),
        buildTokenSet now data prev = .ok ts → ts.refreshToken ≠ "")
    ∧ (∀ (now : Int) (data : TokenEndpointResponse) (rt : String),
        data.refresh_token = none → rt ≠ "" →
        buildTokenSet now data (some rt) =
          .ok { accessToken := data.access_token, refreshToken := rt,
                expiresAt := now + data.expires_in * 1000, scope := data.scope })
    ∧ (∀ (now : Int) (data : TokenEndpointResponse),
        data.refresh_token = none →
        buildTokenSet now data none = .error "Missing refresh token from Spotify response")
    ∧ (∀ (now : Int) (previous : TokenSet) (data : TokenEndpointResponse) (st : Storage),
        data.refresh_token = none → previous.refreshToken ≠ "" →
        ∃ ts, refreshAccessToken now previous (.ok data) st = (.ok ts, storeTokens ts st)
          ∧ ts.refreshToken = previous.refreshToken)
    ∧ (∀ (now : Int) (previous : TokenSet)
        (response : Except Unit TokenEndpointResponse) (st : Storage) (ts : TokenSet),
        ((refreshAccessToken now previous response st).2).token = some ts →
        st.token = some ts ∨ ts.refreshToken ≠ "")
    ∧ (buildTokenSet 0 demoRespNoRefresh (some "refresh-1") =
        .ok { accessToken := "acc-2", refreshToken := "refresh-1",
              expiresAt := 3600000, scope := "playlist" }) := by
  refine ⟨buildTokenSet_ok_refreshToken_ne, buildTokenSet_carry, buildTokenSet_none_none,
    ?_, ?_, rfl⟩
  · intro now previous data st hnone hne
    have hb := buildTokenSet_carry now data previous.refreshToken hnone hne
    refine ⟨⟨data.access_token, previous.refreshToken, now + data.expires_in * 1000,
      data.scope⟩, ?_, rfl⟩
    simp only [refreshAccessToken, hb]
  · intro now previous response st ts h
    cases response with
    | error u =>
      simp only [refreshAccessToken, clearStoredAuth] at h
      exact Option.noConfusion h
    | ok data =>
      cases hb : buildTokenSet now data (some previous.refreshToken) with
      | error e =>
        simp only [refreshAccessToken, hb] at h
        exact Or.inl h
      | ok ts' =>
        simp only [refreshAccessToken, hb, storeTokens, Option.some.injEq] at h
        right
        rw [← h]
        exact buildTokenSet_ok_refreshToken_ne now data (some previous.refreshToken) ts' hb

/-- C5 counterexample: a non-numeric `retry-after` header does not produce the
2-second default. `Number("abc")` is NaN, so the computed delay is NaN and the
`setTimeout` wait is 0 ms, not 2000 ms. -/
theorem retryAfter_nonNumeric_counterexample :
    retryAfterDelayMs (some "abc") = none
    ∧ setTimeoutDelay (retryAfterDelayMs (some "abc")) = 0
    ∧ retryAfterDelayMs (some "abc") ≠ some 2000
    ∧ setTimeoutDelay (retryAfterDelayMs (some "abc")) ≠ 2000 := by
  refine ⟨?_, ?_, ?_, ?_⟩ <;> decide

/-- C5 amended: on a 429 the pipeline reads the retry-after hint in seconds
and waits `value * 1000` ms when the header is numeric; the 2-second default
applies only when the header is absent; a non-numeric header yields NaN and
the wait is 0 ms (immediate resend). The last conjunct shows a 429 answer
being resent and succeeding. -/
theorem retryAfter_delay_semantics :
    (retryAfterDelayMs none = some 2000)
    ∧ (setTimeoutDelay (retryAfterDelayMs none) = 2000)
    ∧ (retryAfterDelayMs (some "5") = some 5000)
    ∧ (∀ (s : String) (n : Int), jsNumber s = some n →
        retryAfterDelayMs (some s) = some (n * 1000))
    ∧ (∀ s : String, jsNumber s = none →
        setTimeoutDelay (retryAfterDelayMs (some s)) = 0)
    ∧ (authorizedFetch 0 demoRefreshFn demoServer429Then200 2 demoTokens 0 0 =
        some { trace := [{ authHeader := "Bearer old-access", status := 429 },
                         { authHeader := "Bearer old-access", status := 200 }],
               status := 200, tokens := demoTokens, refreshes := 0 }) := by
  refine ⟨?_, ?_, ?_, ?_, ?_, ?_⟩
  · decide
  · decide
  · decide
  · intro s n h
    simp [retryAfterDelayMs, h]
  · intro s h
    simp [retryAfterDelayMs, setTimeoutDelay, h]
  · decide

/-- C6 counterexample: a login completion that fails with a state mismatch
leaves both session-scoped transient values (state and code verifier) in
place instead of clearing them, refuting clearing on every completion. -/
theorem completeAuthorization_failure_keeps_pending :
    (completeAuthorization 0 "x" (.error ()) demoPendingStorage).1.isOk = false
    ∧ (completeAuthorization 0 "x" (.error ()) demoPendingStorage).2.stateKey = some "s"
    ∧ (completeAuthorization 0 "x" (.error ()) demoPendingStorage).2.verifierKey = some "v" := by
  refine ⟨?_, ?_, ?_⟩ <;> decide

/-- C6 amended: `completeAuthorization` clears the two session-scoped
transient values exactly on successful completion; every failing completion
(state mismatch, missing verifier, exchange failure, missing refresh token)
returns with the storage — including both transient values — unchanged. -/
theorem pendingAuth_cleared_on_success_only :
    (∀ (now : Int) (returnedState : String) (exchange : Except Unit TokenEndpointResponse)
        (st : Storage) (ts : TokenSet),
        (completeAuthorization now returnedState exchange st).1 = .ok ts →
        (completeAuthorization now returnedState exchange st).2.stateKey = none ∧
        (completeAuthorization now returnedState exchange st).2.verifierKey = none)
    ∧ (∀ (now : Int) (returnedState : String) (exchange : Except Unit TokenEndpointResponse)
        (st : Storage) (e : String),
        (completeAuthorization now returnedState exchange st).1 = .error e →
        (completeAuthorization now returnedState exchange st).2 = st)
    ∧ (completeAuthorization 0 "s" (.ok demoRespFull) demoPendingStorage =
        (.ok { accessToken := "acc-1", refreshToken := "rr",
               expiresAt := 3600000, scope := "playlist" },
         { token := some { accessToken := "acc-1", refreshToken := "rr",
                           expiresAt := 3600000, scope := "playlist" },
           stateKey := none, verifierKey := none })) := by
  refine ⟨?_, ?_, rfl⟩
  · intro now returnedState exchange st ts h
    rcases completeAuthorization_cases now returnedState exchange st with ⟨e, he⟩ | ⟨ts', hok⟩
    · rw [he] at h
      exact Except.noConfusion h
    · rw [hok]
      exact ⟨rfl, rfl⟩
  · intro now returnedState exchange st e h
    rcases completeAuthorization_cases now returnedState exchange st with ⟨e', he⟩ | ⟨ts', hok⟩
    · rw [he]
    · rw [hok] at h
      exact Except.noConfusion h

/-- C7: the paginated fetch emits each page's rows in item order and
concatenates pages in received order, stops exactly when the page's `next`
link is absent, skips items whose track is null or whose URI is absent or
empty without consuming an index, and gives emitted rows consecutive indices
`index, index+1, ...` (unique and monotonically increasing, starting at 0 for
a fetch started at 0); the last conjunct runs a two-page fetch with a null
track and a URI-less track concretely. -/
theorem paginated_fetch_order_skip_index :
    (∀ (pid : String) (page : TracksPage) (rest : List TracksPage) (index : Nat),
        page.next = none →
        fetchPlaylistTracks pid (page :: rest) index = (processItems pid page.items index).1)
    ∧ (∀ (pid : String) (page : TracksPage) (rest : List TracksPage) (index : Nat)
        (nx : String), page.next = some nx →
        fetchPlaylistTracks pid (page :: rest) index =
          (processItems pid page.items index).1 ++
            fetchPlaylistTracks pid rest (processItems pid page.items index).2)
    ∧ (∀ (pid : String) (index : Nat) (item : SpotifyPlaylistItem),
        item.track = none → rowOfItem pid index item = none)
    ∧ (∀ (pid : String) (index : Nat) (item : SpotifyPlaylistItem) (t : SpotifyTrack),
        item.track = some t → (t.uri = none ∨ t.uri = some "") →
        rowOfItem pid index item = none)
    ∧ (∀ (pid : String) (item : SpotifyPlaylistItem) (rest : List SpotifyPlaylistItem)
        (index : Nat), rowOfItem pid index item = none →
        processItems pid (item :: rest) index = processItems pid rest index)
    ∧ (∀ (pid : String) (item : SpotifyPlaylistItem) (rest : List SpotifyPlaylistItem)
        (index : Nat) (row : TrackRow), rowOfItem pid index item = some row →
        processItems pid (item :: rest) index =
          (row :: (processItems pid rest (index + 1)).1, (processItems pid rest (index + 1)).2)
        ∧ row.originalIndex = Int.ofNat index)
    ∧ (∀ (pid : String) (pages : List TracksPage) (index : Nat),
        (fetchPlaylistTracks pid pages index).map TrackRow.originalIndex =
          (List.range' index (fetchPlaylistTracks pid pages index).length).map Int.ofNat)
    ∧ ((fetchPlaylistTracks "pl" demoPages 0).map (fun r => (r.name, r.originalIndex)) =
        [("one", 0), ("two", 1), ("three", 2)]) := by
  refine ⟨fetchPlaylistTracks_last, fetchPlaylistTracks_step, ?_, ?_,
    processItems_skip, ?_, fetchPlaylistTracks_indices, by decide⟩
  · intro pid index item h
    simp [rowOfItem, h]
  · intro pid index item t ht hu
    rcases hu with hu | hu <;> simp [rowOfItem, ht, hu]
  · intro pid item rest index row h
    exact ⟨processItems_emit pid item rest index row h,
      rowOfItem_originalIndex pid index item row h⟩

/-- C8: the sorted URIs are cut into front-to-back chunks of at most 100 that
concatenate back to the input (original sequence order), and the batch POST
requests are issued one per chunk in chunk order; 250 URIs give exactly 3 batches of
sizes 100, 100, 50, in that order. -/
theorem playlist_write_batching :
    (∀ (pid : String) (uris : List String), uris.length = 250 →
        (chunkArray uris 100).map List.length = [100, 100, 50]
        ∧ (chunkArray uris 100).flatten = uris
        ∧ (addTrackBatchRequests pid uris).map (fun r => r.2.length) = [100, 100, 50])
    ∧ (∀ (uris : List String) (n : Nat), (chunkArray uris (n + 1)).flatten = uris)
    ∧ (∀ (uris c : List String), c ∈ chunkArray uris 100 → c.length ≤ 100)
    ∧ (∀ (pid : String) (uris : List String),
        addTrackBatchRequests pid uris =
          (chunkArray uris 100).map (fun chunk => ("/playlists/" ++ pid ++ "/tracks", chunk)))
    ∧ ((addTrackBatchRequests "p" (List.replicate 250 "u")).map (fun r => r.2.length) =
        [100, 100, 50]) := by
  refine ⟨?_, ?_, ?_, ?_, ?_⟩
  · intro pid uris h250
    refine ⟨chunkArray_sizes_250 uris h250, chunkArray_flatten uris 99, ?_⟩
    rw [addTrackBatchRequests, List.map_map]
    exact chunkArray_sizes_250 uris h250
  · exact chunkArray_flatten
  · intro uris c hc
    exact chunkArray_mem_length uris c 99 hc
  · intro pid uris
    rfl
  · rw [addTrackBatchRequests, List.map_map]
    exact chunkArray_sizes_250 _ (by rw [List.length_replicate])

/-- C9: the 429 path never bounds the attempt count: against a server that
answers 429 to every send, `authorizedFetch` keeps re-invoking itself for
every fuel bound (the fuel is the embedding's artifact; `none` means the
source code is still recursing), at every attempt counter value. -/
theorem rateLimit_retry_unbounded :
    (∀ (now : Int) (refreshFn : TokenSet → TokenSet) (server : Nat → Int),
        (∀ i, server i = 429) →
        ∀ (fuel : Nat) (tokens : TokenSet) (attempt sendIdx : Nat),
          authorizedFetch now refreshFn server fuel tokens attempt sendIdx = none)
    ∧ (authorizedFetch 0 demoRefreshFn (fun _ => 429) 1000 demoTokens 0 0 = none) := by
  refine ⟨authorizedFetch_always429_none, ?_⟩
  exact authorizedFetch_always429_none 0 demoRefreshFn (fun _ => 429) (fun i => rfl)
    1000 demoTokens 0 0

/-- C10: loading the stored token record is total and shape-checked: an
absent value, a parse failure, or a parsed value whose `accessToken` or
`refreshToken` is not a string all yield the absent result, and any returned
record has string `accessToken` and `refreshToken` fields. -/
theorem loadStoredTokens_total_shape :
    (∀ parse : String → Option JsonValue, loadStoredTokens parse none = none)
    ∧ (∀ (parse : String → Option JsonValue) (raw : String),
        parse raw = none → loadStoredTokens parse (some raw) = none)
    ∧ (∀ (parse : String → Option JsonValue) (raw : String) (v : JsonValue),
        parse raw = some v →
        ¬(jsTypeofString (v.getField "accessToken") = true ∧
          jsTypeofString (v.getField "refreshToken") = true) →
        loadStoredTokens parse (some raw) = none)
    ∧ (∀ (parse : String → Option JsonValue) (raw : Option String) (v : JsonValue),
        loadStoredTokens parse raw = some v →
        jsTypeofString (v.getField "accessToken") = true ∧
        jsTypeofString (v.getField "refreshToken") = true)
    ∧ (loadStoredTokens demoParse (some "num") = none)
    ∧ (loadStoredTokens demoParse (some "oops") = none)
    ∧ (loadStoredTokens demoParse (some "good") =
        some (.obj [("accessToken", .str "a"), ("refreshToken", .str "r")])) := by
  refine ⟨fun parse => rfl, ?_, ?_, ?_, rfl, rfl, rfl⟩
  · intro parse raw h
    simp [loadStoredTokens, h]
  · intro parse raw v hp hshape
    have hb : (jsTypeofString (v.getField "accessToken") &&
        jsTypeofString (v.getField "refreshToken")) = false := by
      cases h1 : jsTypeofString (v.getField "accessToken") <;>
        cases h2 : jsTypeofString (v.getField "refreshToken") <;> simp_all
    simp [loadStoredTokens, hp, hb]
  · intro parse raw v h
    cases raw with
    | none => exact Option.noConfusion h
    | some r =>
      cases hp : parse r with
      | none => simp [loadStoredTokens, hp] at h
      | some w =>
        simp only [loadStoredTokens, hp] at h
        split_ifs at h with hc
        rw [Option.some.injEq] at h
        rw [Bool.and_eq_true] at hc
        rw [← h]
        exact hc

end Sortify
